import Mathlib

/-!
Verification of the YouTube playlist summarizer pipeline
(`youtubeplaylistcopy.py`).

The development shallowly embeds the program's five components:

* `get_youtube_playlist_id` — the identifier extractor, the regex
  search for a marker followed by identifier characters;
* `get_playlist_video_urls` / `listLoop` — the paginated playlist
  lister, with the external listing endpoint modelled as the finite
  sequence of page responses it produces for the successive requests;
* `get_video_transcript` — the transcript resolver, with the external
  captions service modelled by the `TranscriptFetch` outcome type;
* `summarize_text_with_gemini` — the summarizer, with the generative
  model handle modelled as an optional response function;
* `runPipeline` / `processVideo` — the orchestrator driving the button
  handler's per-video loop, accumulating output rows and progress
  fractions.

External effects are passed in as explicit environment values, so every
definition is an executable Lean function mirroring the Python control
flow.
-/

namespace YTPS

/-! ## Identifier extractor -/

/-- Character class of the capture group in the pattern
`(?:list=)([a-zA-Z0-9_-]+)`. -/
def isIdChar (c : Char) : Bool :=
  ('a' ≤ c && c ≤ 'z') || ('A' ≤ c && c ≤ 'Z') || ('0' ≤ c && c ≤ '9')
    || c = '_' || c = '-'

/-- The literal marker `list=` that the pattern requires before the
capture group. -/
def listMarker : List Char := ['l', 'i', 's', 't', '=']

/-- One attempt of the regex at a fixed start position: succeed exactly
when the text starts with `list=` followed by at least one identifier
character, capturing the maximal identifier-character run. -/
def matchListMarker (s : List Char) : Option (List Char) :=
  if s.take 5 = listMarker then
    let tok := (s.drop 5).takeWhile isIdChar
    if tok.isEmpty then none else some tok
  else none

/-- The `re.search` scan: try each start position from the left, return
the first successful capture. -/
def playlistIdScan : List Char → Option (List Char)
  | [] => none
  | c :: rest =>
    match matchListMarker (c :: rest) with
    | some tok => some tok
    | none => playlistIdScan rest

/-- Source function `get_youtube_playlist_id`: extract the playlist id
from a URL, `None` when the pattern does not match. -/
def get_youtube_playlist_id (url : String) : Option String :=
  (playlistIdScan url.data).map fun tok => String.mk tok

/-! ## Playlist lister -/

/-- One playlist item as returned by a listing page: the fields the
source reads (`contentDetails.videoId`, `snippet.title`). -/
structure PageItem where
  videoId : String
  title : String
deriving DecidableEq, Repr

/-- One response page of the listing endpoint: its items and the
optional continuation token (`nextPageToken`). -/
structure Page where
  items : List PageItem
  nextPageToken : Option String
deriving DecidableEq, Repr

/-- A video record as accumulated by `get_playlist_video_urls`. -/
structure VideoRecord where
  video_id : String
  title : String
  url : String
deriving DecidableEq, Repr

/-- One listing request issued by the loop: the arguments the source
passes to `playlistItems().list` that the spec constrains. -/
structure ListRequest where
  playlistId : String
  maxResults : Nat
  pageToken : Option String
deriving DecidableEq, Repr

/-- Build one `VideoRecord` from one page item, synthesizing the short
URL literal from the video id. -/
def itemToRecord (it : PageItem) : VideoRecord :=
  { video_id := it.videoId, title := it.title
    url := "youtu.be/" ++ it.videoId }

/-- Python's falsiness test `if not next_page_token` on the continuation
token: true when the token is absent or the empty string. -/
def tokenDone (tok : Option String) : Bool :=
  (tok.getD "").isEmpty

/-- The `while True` pagination loop of `get_playlist_video_urls`.
`tok` is the current `pageToken`; the endpoint's successive responses
are the list `ps` (one entry per issued request).  Returns the issued
requests and accumulated records, or `none` when the endpoint has no
response for an issued request (a transport error raising inside the
loop). -/
def listLoop (pid : String) : Option String → List Page →
    Option (List ListRequest × List VideoRecord)
  | _, [] => none
  | tok, p :: rest =>
    let req : ListRequest := ⟨pid, 50, tok⟩
    let recs := p.items.map itemToRecord
    if tokenDone p.nextPageToken then some ([req], recs)
    else
      match listLoop pid p.nextPageToken rest with
      | none => none
      | some (reqs, more) => some (req :: reqs, recs ++ more)

/-- The listing endpoint as seen by one run: either the finite sequence
of page responses it serves, or a transport/auth error raised on the
first request. -/
inductive ListingBehavior where
  | pages (ps : List Page)
  | failure (msg : String)

/-- Source function `get_playlist_video_urls`: missing API key returns
`[]`; any exception (transport error, or a request the endpoint never
answers) is caught and returns `[]`; otherwise the records accumulated
by the pagination loop. -/
def get_playlist_video_urls (youtubeApiKey : String) (pid : String)
    (endpoint : ListingBehavior) : List VideoRecord :=
  if youtubeApiKey.isEmpty then []
  else
    match endpoint with
    | .failure _ => []
    | .pages ps =>
      match listLoop pid none ps with
      | none => []
      | some (_, recs) => recs

/-! ## Transcript resolver -/

/-- One caption fragment as returned by the captions service
(`{text, start, duration}`); the source reads only `text`. -/
structure CaptionFragment where
  text : String
  start : ℚ
  duration : ℚ
deriving DecidableEq, Repr

/-- Outcome of the external captions call for one video id: the ordered
fragments, or one of the classified exceptions of the source's
`try/except` chain. -/
inductive TranscriptFetch where
  | ok (fragments : List CaptionFragment)
  | noTranscriptFound
  | transcriptsDisabled
  | otherError (msg : String)

/-- Source function `get_video_transcript`: join fragment texts with
single spaces in service order, else the classified label. -/
def get_video_transcript : TranscriptFetch → String
  | .ok fragments =>
    String.intercalate " " (fragments.map CaptionFragment.text)
  | .noTranscriptFound => "No transcript found."
  | .transcriptsDisabled => "Transcripts disabled for this video."
  | .otherError e => "Error fetching transcript: " ++ e

/-! ## Summarizer -/

/-- Outcome of one `generate_content` call on the model handle. -/
inductive ModelCall where
  | ok (text : String)
  | failure (msg : String)

/-- The generative model handle: `none` mirrors `gemini_model = None`;
otherwise the model's response as a function of the prompt. -/
abbrev ModelHandle := Option (String → ModelCall)

/-- Source function `summarize_text_with_gemini`: the uninitialized
guard first, then the literal error-sentinel equality list, then the
prompt and the guarded model call. -/
def summarize_text_with_gemini (gemini_model : ModelHandle)
    (text : String) : String :=
  match gemini_model with
  | none => "Gemini model not initialized."
  | some model =>
    if text = "No transcript found."
        ∨ text = "Transcripts disabled for this video."
        ∨ text = "Error fetching transcript:" then
      text
    else
      let prompt :=
        "Please provide a concise summary of the following text:\n\n"
          ++ text
      match model prompt with
      | .ok t => t
      | .failure e => "Error summarizing: " ++ e

/-! ## Pipeline orchestrator -/

/-- External world of one run: the model handle and, per video id, what
the captions service does. -/
structure Env where
  gemini_model : ModelHandle
  transcripts : String → TranscriptFetch

/-- Python's `str.startswith` on one candidate: character-sequence
prefix test. -/
def strStarts (s pre : String) : Bool :=
  pre.data.isPrefixOf s.data

/-- The orchestrator's guard
`transcript and not transcript.startswith((...))`: summarize only a
nonempty transcript that starts with none of the three error marks. -/
def shouldSummarize (t : String) : Bool :=
  !t.isEmpty
    && !(strStarts t "No transcript found"
      || strStarts t "Transcripts disabled"
      || strStarts t "Error fetching")

/-- One row of `results_df`. -/
structure OutputRow where
  videoTitle : String
  videoUrl : String
  summary : String
deriving DecidableEq, Repr

/-- One iteration of the results loop: fetch the transcript, summarize
it or pass the transcript through, build the row. -/
def processVideo (env : Env) (d : VideoRecord) : OutputRow :=
  let transcript := get_video_transcript (env.transcripts d.video_id)
  let summary :=
    if shouldSummarize transcript then
      summarize_text_with_gemini env.gemini_model transcript
    else transcript
  { videoTitle := d.title, videoUrl := d.url, summary := summary }

/-- The successive values handed to `progress_bar.progress`:
`(i + 1) / len(video_details)` for `i = 0 .. n-1`, as exact
fractions. -/
def progressList (n : Nat) : List ℚ :=
  (List.range n).map fun i : Nat => ((i : ℚ) + 1) / (n : ℚ)

/-- Outcome of one press of the button: the guard warnings, the
invalid-URL error, the empty-listing warning (which renders no table),
or the rendered table with its progress report trace. -/
inductive RunOutcome where
  | missingKeys
  | missingUrl
  | invalidUrl
  | noVideos
  | table (rows : List OutputRow) (progress : List ℚ)
deriving DecidableEq

/-- The `Get Summaries` button handler: key and URL guards, identifier
extraction (fail fast), listing (soft-fail to empty, which renders only
a warning), then the sequential per-video loop building `results_df`
and the progress trace. -/
def runPipeline (geminiKey youtubeKey urlInput : String) (env : Env)
    (endpoint : ListingBehavior) : RunOutcome :=
  if geminiKey.isEmpty || youtubeKey.isEmpty then .missingKeys
  else if urlInput.isEmpty then .missingUrl
  else
    match get_youtube_playlist_id urlInput with
    | none => .invalidUrl
    | some pid =>
      let details := get_playlist_video_urls youtubeKey pid endpoint
      if details.isEmpty then .noVideos
      else
        .table (details.map (processVideo env))
          (progressList details.length)

/-! ## Shared sample environments for concrete evaluations -/

/-- A run environment whose model handle is uninitialized and whose
captions service always raises the disabled exception. -/
def envNoModel : Env := ⟨none, fun _ => .transcriptsDisabled⟩

/-- A listing endpoint serving one single-item page with no
continuation token. -/
def onePage : ListingBehavior := .pages [⟨[⟨"v1", "T1"⟩], none⟩]

/-- A run environment with a working model whose captions service
returns a genuine transcript that happens to start with the
no-transcript error mark. -/
def envPrefixCollision : Env :=
  ⟨some fun _ => .ok "S",
    fun _ => .ok [⟨"No transcript found in many archives, I argue", 0, 1⟩]⟩

/-- Two endpoint pages: the first with a continuation token, the second
final. -/
def twoPages : List Page :=
  [⟨[⟨"a1", "A1"⟩, ⟨"a2", "A2"⟩], some "T2"⟩, ⟨[⟨"b1", "B1"⟩], none⟩]

/-! ## Spec-side formulations -/

/-- Spec-side reading of single-space joining: the fragments' texts
separated by one space each, in order. -/
def joinSpaces : List String → String
  | [] => ""
  | [t] => t
  | t :: rest => t ++ " " ++ joinSpaces rest

/-- Tail part of `joinSpaces` after a first element. -/
def joinSpacesTail : List String → String
  | [] => ""
  | t :: rest => " " ++ t ++ joinSpacesTail rest

/-- Spec-side request chain: the first request carries no continuation
token, and each later request carries exactly the token the previous
page returned; every request asks for page size 50 of the given
playlist. -/
def chainTokens (pid : String) : Option String → List Page →
    List ListRequest
  | _, [] => []
  | tok, p :: rest => ⟨pid, 50, tok⟩ :: chainTokens pid p.nextPageToken rest

/-- Well-formed endpoint response sequence: at least one page, every
page except the last carries a (truthy) continuation token, and the
last page carries none — exactly the sequences a correct paged endpoint
produces for the loop's requests. -/
def pagesWF : List Page → Bool
  | [] => false
  | [p] => tokenDone p.nextPageToken
  | p :: rest => !tokenDone p.nextPageToken && pagesWF rest

theorem joinSpaces_cons (a : String) (l : List String) :
    joinSpaces (a :: l) = a ++ joinSpacesTail l := by
  induction l generalizing a with
  | nil => simp [joinSpaces, joinSpacesTail]
  | cons b t ih =>
    simp only [joinSpaces, joinSpacesTail, ih b, String.append_assoc]

theorem intercalate_go_spec (acc : String) (l : List String) :
    String.intercalate.go acc " " l = acc ++ joinSpacesTail l := by
  induction l generalizing acc with
  | nil => simp [String.intercalate.go, joinSpacesTail]
  | cons b t ih =>
    simp only [String.intercalate.go, ih, joinSpacesTail,
      String.append_assoc]

theorem intercalate_space_eq_joinSpaces (l : List String) :
    String.intercalate " " l = joinSpaces l := by
  cases l with
  | nil => rfl
  | cons a t =>
    simp only [String.intercalate, intercalate_go_spec, joinSpaces_cons]

/-! ## Extractor lemmas -/

theorem matchListMarker_nil : matchListMarker [] = none := rfl

theorem playlistIdScan_none_iff (s : List Char) :
    playlistIdScan s = none ↔
      ∀ i, matchListMarker (s.drop i) = none := by
  induction s with
  | nil => simp [playlistIdScan, matchListMarker_nil]
  | cons c t ih =>
    cases hm : matchListMarker (c :: t) with
    | some tok =>
      simp only [playlistIdScan, hm]
      constructor
      · intro h; exact absurd h (by simp)
      · intro h
        have h0 := h 0
        rw [List.drop_zero, hm] at h0
        exact absurd h0 (by simp)
    | none =>
      simp only [playlistIdScan, hm]
      rw [ih]
      constructor
      · intro h i
        cases i with
        | zero => simpa using hm
        | succ j => simpa using h j
      · intro h j
        simpa using h (j + 1)

theorem playlistIdScan_first (s : List Char) (i : Nat) (tok : List Char)
    (hm : matchListMarker (s.drop i) = some tok)
    (hfirst : ∀ j, j < i → matchListMarker (s.drop j) = none) :
    playlistIdScan s = some tok := by
  induction s generalizing i with
  | nil =>
    rw [List.drop_nil, matchListMarker_nil] at hm
    exact absurd hm (by simp)
  | cons c t ih =>
    cases i with
    | zero =>
      rw [List.drop_zero] at hm
      simp only [playlistIdScan, hm]
    | succ j =>
      have h0 : matchListMarker (c :: t) = none := by
        simpa using hfirst 0 (Nat.succ_pos j)
      simp only [playlistIdScan, h0]
      exact ih j (by simpa using hm)
        (fun k hk => by simpa using hfirst (k + 1) (Nat.succ_lt_succ hk))

theorem head?_dropWhile_false (p : Char → Bool) (l : List Char) :
    ∀ c, (l.dropWhile p).head? = some c → p c = false := by
  induction l with
  | nil => intro c h; simp at h
  | cons a t ih =>
    intro c h
    cases hp : p a with
    | true =>
      rw [List.dropWhile_cons_of_pos hp] at h
      exact ih c h
    | false =>
      rw [List.dropWhile_cons_of_neg (by simp [hp])] at h
      simp only [List.head?_cons, Option.some.injEq] at h
      rw [← h]; exact hp

theorem takeWhile_append_none (p : Char → Bool) (tok rest : List Char)
    (hall : ∀ c ∈ tok, p c = true)
    (hrest : ∀ c, rest.head? = some c → p c = false) :
    (tok ++ rest).takeWhile p = tok := by
  rw [List.takeWhile_append_of_pos hall]
  cases rest with
  | nil => simp
  | cons r t =>
    have hpr : ¬p r = true := by simp [hrest r (by simp)]
    simp [List.takeWhile_cons_of_neg hpr]

theorem matchListMarker_some_iff (s tok : List Char) :
    matchListMarker s = some tok ↔
      tok ≠ [] ∧ (∀ c ∈ tok, isIdChar c = true)
      ∧ ∃ rest, s = listMarker ++ (tok ++ rest)
        ∧ ∀ c, rest.head? = some c → isIdChar c = false := by
  constructor
  · intro h
    unfold matchListMarker at h
    by_cases h5 : s.take 5 = listMarker
    · rw [if_pos h5] at h
      by_cases he : ((s.drop 5).takeWhile isIdChar).isEmpty
      · simp [he] at h
      · simp only [he, Bool.false_eq_true, if_false,
          Option.some.injEq] at h
        subst h
        refine ⟨by simpa [List.isEmpty_iff] using he,
          fun c hc => List.mem_takeWhile_imp hc, ?_⟩
        refine ⟨(s.drop 5).dropWhile isIdChar, ?_, ?_⟩
        · rw [List.takeWhile_append_dropWhile, ← h5]
          exact (List.take_append_drop 5 s).symm
        · exact head?_dropWhile_false isIdChar (s.drop 5)
    · rw [if_neg h5] at h
      exact absurd h (by simp)
  · rintro ⟨hne, hall, rest, rfl, hrest⟩
    have h5 : (listMarker ++ (tok ++ rest)).take 5 = listMarker :=
      List.take_left' rfl
    have hd : (listMarker ++ (tok ++ rest)).drop 5 = tok ++ rest :=
      List.drop_left' rfl
    unfold matchListMarker
    rw [if_pos h5, hd, takeWhile_append_none isIdChar tok rest hall hrest]
    simp [List.isEmpty_iff, hne]

/-! ## Claim theorem: identifier extractor -/

/-- C2: `get_youtube_playlist_id` returns `none` exactly when no
position of the input carries the `list=` marker followed by an
identifier character; when such positions exist, it returns the token of
the leftmost one; and a successful per-position match is precisely a
nonempty maximal run of characters from `[A-Za-z0-9_-]` immediately
after the marker (maximality: the run is followed by the end of input or
a character outside the class).  The function is a total Lean function:
deterministic, effect-free, never raising. -/
theorem C2_extractor (url : String) :
    (get_youtube_playlist_id url = none ↔
      ∀ i, matchListMarker (url.data.drop i) = none)
    ∧ (∀ i tok, matchListMarker (url.data.drop i) = some tok →
        (∀ j, j < i → matchListMarker (url.data.drop j) = none) →
        get_youtube_playlist_id url = some (String.mk tok))
    ∧ ∀ s tok, matchListMarker s = some tok ↔
        (tok ≠ [] ∧ (∀ c ∈ tok, isIdChar c = true)
          ∧ ∃ rest, s = listMarker ++ (tok ++ rest)
            ∧ ∀ c, rest.head? = some c → isIdChar c = false) := by
  refine ⟨?_, ?_, fun s tok => matchListMarker_some_iff s tok⟩
  · unfold get_youtube_playlist_id
    rw [Option.map_eq_none']
    exact playlistIdScan_none_iff url.data
  · intro i tok hm hfirst
    unfold get_youtube_playlist_id
    rw [playlistIdScan_first url.data i tok hm hfirst]
    rfl

/-- C2 witness: the leftmost-match clause applied at the spec's own
example URL, whose marker sits at position 18. -/
theorem C2_extractor_witness :
    get_youtube_playlist_id "youtu.be/playlist?list=PL123abc"
      = some "PL123abc" := by
  have h := (C2_extractor "youtu.be/playlist?list=PL123abc").2.1 18
    "PL123abc".data (by decide) (by decide)
  exact h

/-! ## Lister lemmas -/

theorem listLoop_wf (pid : String) (ps : List Page)
    (h : pagesWF ps = true) :
    ∀ tok, listLoop pid tok ps
      = some (chainTokens pid tok ps,
          ((ps.map Page.items).flatten).map itemToRecord) := by
  induction ps with
  | nil => cases h
  | cons p rest ih =>
    intro tok
    cases rest with
    | nil =>
      have hd : tokenDone p.nextPageToken = true := by
        simpa [pagesWF] using h
      simp [listLoop, hd, chainTokens, List.flatten]
    | cons q rest2 =>
      have h' : (!tokenDone p.nextPageToken
          && pagesWF (q :: rest2)) = true := by
        simpa [pagesWF] using h
      rw [Bool.and_eq_true] at h'
      obtain ⟨h1', h2⟩ := h'
      have h1 : tokenDone p.nextPageToken = false := by
        simpa using h1'
      have hrec := ih h2 p.nextPageToken
      simp only [listLoop, h1, Bool.false_eq_true, if_false] at hrec ⊢
      rw [hrec]
      simp [chainTokens, List.map_append, List.append_assoc]

theorem chainTokens_mem (pid : String) (ps : List Page) :
    ∀ tok r, r ∈ chainTokens pid tok ps →
      r.playlistId = pid ∧ r.maxResults = 50 := by
  induction ps with
  | nil => intro tok r hr; simp [chainTokens] at hr
  | cons p rest ih =>
    intro tok r hr
    simp only [chainTokens, List.mem_cons] at hr
    rcases hr with rfl | hr
    · exact ⟨rfl, rfl⟩
    · exact ih p.nextPageToken r hr

theorem chainTokens_length (pid : String) (ps : List Page) :
    ∀ tok, (chainTokens pid tok ps).length = ps.length := by
  induction ps with
  | nil => intro tok; rfl
  | cons p rest ih => intro tok; simp [chainTokens, ih]

/-- C5: for a well-formed endpoint response sequence, the pagination
loop issues one request per page — each asking for 50 items of the given
playlist, the first with no continuation token and each later one with
exactly the token the previous page returned (`chainTokens`) — stops
exactly at the first tokenless page, and returns the concatenation of
all pages' items in order, each record's URL being `youtu.be/` plus its
video id. -/
theorem C5_pagination (pid : String) (ps : List Page)
    (h : pagesWF ps = true) :
    listLoop pid none ps
      = some (chainTokens pid none ps,
          ((ps.map Page.items).flatten).map itemToRecord)
    ∧ (∀ r ∈ chainTokens pid none ps,
        r.playlistId = pid ∧ r.maxResults = 50)
    ∧ (chainTokens pid none ps).head? = some ⟨pid, 50, none⟩
    ∧ (chainTokens pid none ps).length = ps.length
    ∧ ∀ rec ∈ ((ps.map Page.items).flatten).map itemToRecord,
        rec.url = "youtu.be/" ++ rec.video_id := by
  refine ⟨listLoop_wf pid ps h none,
    fun r hr => chainTokens_mem pid ps none r hr, ?_,
    chainTokens_length pid ps none, ?_⟩
  · cases ps with
    | nil => cases h
    | cons p rest => rfl
  · intro rec hrec
    simp only [List.mem_map] at hrec
    obtain ⟨it, _, rfl⟩ := hrec
    rfl

/-- C5 witness: the pagination theorem applied to a concrete two-page
endpoint. -/
theorem C5_pagination_witness :
    pagesWF twoPages = true
    ∧ (listLoop "PL" none twoPages
        = some (chainTokens "PL" none twoPages,
            ((twoPages.map Page.items).flatten).map itemToRecord)
      ∧ (∀ r ∈ chainTokens "PL" none twoPages,
          r.playlistId = "PL" ∧ r.maxResults = 50)
      ∧ (chainTokens "PL" none twoPages).head? = some ⟨"PL", 50, none⟩
      ∧ (chainTokens "PL" none twoPages).length = twoPages.length
      ∧ ∀ rec ∈ ((twoPages.map Page.items).flatten).map itemToRecord,
          rec.url = "youtu.be/" ++ rec.video_id) :=
  ⟨by decide, C5_pagination "PL" twoPages (by decide)⟩

/-! ## Claim theorems: resolver and summarizer -/

/-- C7: `get_video_transcript` joins the caption fragments' text fields
with single spaces in service (timeline) order when the captions call
succeeds, and otherwise returns exactly one classified outcome: the
no-transcript label, the transcripts-disabled label, or the fetch-error
label carrying the underlying message.  As a total Lean function it
never raises. -/
theorem C7_transcript_resolution :
    (∀ fragments, get_video_transcript (.ok fragments)
        = joinSpaces (fragments.map CaptionFragment.text))
    ∧ get_video_transcript .noTranscriptFound = "No transcript found."
    ∧ get_video_transcript .transcriptsDisabled
        = "Transcripts disabled for this video."
    ∧ ∀ e, get_video_transcript (.otherError e)
        = "Error fetching transcript: " ++ e := by
  refine ⟨fun fragments => ?_, rfl, rfl, fun e => rfl⟩
  simp [get_video_transcript, intercalate_space_eq_joinSpaces]

/-- C3 counterexample: a fetch-error label carrying a message (here
`Error fetching transcript: boom`) is not equal to any entry of the
literal sentinel list, so `summarize_text_with_gemini` does consult the
model on it and returns the model's output, not the label unchanged. -/
theorem C3_counterexample :
    summarize_text_with_gemini (some fun _ => .ok "MODEL OUTPUT")
        "Error fetching transcript: boom" = "MODEL OUTPUT"
    ∧ "MODEL OUTPUT" ≠ "Error fetching transcript: boom" := by
  exact ⟨by decide, by decide⟩

/-- C3 amended: when the model handle is initialized, exactly the three
literal sentinel strings — the no-transcript label, the
transcripts-disabled label, and the bare fetch-error label with no
message — are returned unchanged; the statement holds for every model
behavior `m`, so the model is never consulted on them.  (A fetch-error
label carrying a message is not short-circuited, and with the handle
uninitialized the not-initialized sentinel is returned instead of the
label.) -/
theorem C3_short_circuit (m : String → ModelCall) (t : String)
    (h : t = "No transcript found."
       ∨ t = "Transcripts disabled for this video."
       ∨ t = "Error fetching transcript:") :
    summarize_text_with_gemini (some m) t = t := by
  simp only [summarize_text_with_gemini]
  rw [if_pos h]

/-- C3 witness: the short-circuit theorem applied at the no-transcript
label and a concrete model. -/
theorem C3_short_circuit_witness :
    ("No transcript found." = "No transcript found."
       ∨ "No transcript found." = "Transcripts disabled for this video."
       ∨ "No transcript found." = "Error fetching transcript:")
    ∧ summarize_text_with_gemini (some fun _ => ModelCall.ok "S")
        "No transcript found." = "No transcript found." :=
  ⟨Or.inl rfl, C3_short_circuit (fun _ => ModelCall.ok "S")
    "No transcript found." (Or.inl rfl)⟩

/-- C4 counterexample: with the model handle uninitialized, a row whose
transcript resolved to the transcripts-disabled label carries that label
as its summary, not the `Gemini model not initialized.` sentinel — the
orchestrator's guard routes error labels past the summarizer. -/
theorem C4_counterexample :
    runPipeline "g" "y" "list=PL1" envNoModel onePage
      = .table [⟨"T1", "youtu.be/v1", "Transcripts disabled for this video."⟩]
          (progressList 1)
    ∧ "Transcripts disabled for this video."
        ≠ "Gemini model not initialized." :=
  ⟨rfl, by decide⟩

/-- C4 amended: with the model handle uninitialized, a row's summary is
the `Gemini model not initialized.` sentinel exactly when the fetched
transcript passes the orchestrator's guard (nonempty and no error
mark); rows whose transcript is empty or an error label carry the
transcript itself verbatim. -/
theorem C4_no_model_summary (env : Env) (hm : env.gemini_model = none)
    (d : VideoRecord) :
    (processVideo env d).summary
      = (if shouldSummarize (get_video_transcript (env.transcripts d.video_id))
          then "Gemini model not initialized."
          else get_video_transcript (env.transcripts d.video_id)) := by
  simp only [processVideo, summarize_text_with_gemini, hm]

/-- C4 witness: the amended theorem applied to the shared
no-model environment and a concrete video record. -/
theorem C4_no_model_summary_witness :
    envNoModel.gemini_model = none
    ∧ (processVideo envNoModel ⟨"v1", "T1", "youtu.be/v1"⟩).summary
      = (if shouldSummarize (get_video_transcript
            (envNoModel.transcripts "v1"))
          then "Gemini model not initialized."
          else get_video_transcript (envNoModel.transcripts "v1")) :=
  ⟨rfl, C4_no_model_summary envNoModel rfl ⟨"v1", "T1", "youtu.be/v1"⟩⟩

/-- C8: when the captions service raises the disabled exception for a
video, that row's summary equals the disabled sentinel verbatim, for
every model handle and every model behavior — so the generative model is
never consulted for that video. -/
theorem C8_disabled_short_circuit (gm : ModelHandle)
    (tr : String → TranscriptFetch) (d : VideoRecord)
    (h : tr d.video_id = .transcriptsDisabled) :
    (processVideo ⟨gm, tr⟩ d).summary
      = "Transcripts disabled for this video." := by
  have hs : shouldSummarize "Transcripts disabled for this video."
      = false := by decide
  simp [processVideo, h, get_video_transcript, hs]

/-- C8 witness: the theorem applied with a live model whose output never
appears in the row. -/
theorem C8_disabled_short_circuit_witness :
    (fun _ : String => TranscriptFetch.transcriptsDisabled) "v1"
      = TranscriptFetch.transcriptsDisabled
    ∧ (processVideo
        ⟨some fun _ => ModelCall.ok "S",
          fun _ => TranscriptFetch.transcriptsDisabled⟩
        ⟨"v1", "T1", "youtu.be/v1"⟩).summary
      = "Transcripts disabled for this video." :=
  ⟨rfl, C8_disabled_short_circuit _ _ _ rfl⟩

/-- C10: whenever the fetched transcript string is empty or starts with
one of the three error marks, the orchestrator skips the summarizer and
writes that string verbatim as the row's summary — including a genuine
caption transcript that merely happens to start with such a mark; the
statement holds for every model handle and behavior. -/
theorem C10_skip_guard (env : Env) (d : VideoRecord)
    (h : ((get_video_transcript (env.transcripts d.video_id)).isEmpty
      || strStarts (get_video_transcript (env.transcripts d.video_id))
          "No transcript found"
      || strStarts (get_video_transcript (env.transcripts d.video_id))
          "Transcripts disabled"
      || strStarts (get_video_transcript (env.transcripts d.video_id))
          "Error fetching") = true) :
    (processVideo env d).summary
      = get_video_transcript (env.transcripts d.video_id) := by
  have hf : shouldSummarize
      (get_video_transcript (env.transcripts d.video_id)) = false := by
    simp only [Bool.or_eq_true] at h
    rcases h with ((h1 | h2) | h3) | h4 <;> simp [shouldSummarize, *]
  simp [processVideo, hf]

/-- C10 witness: a genuine caption transcript beginning with the
no-transcript mark is passed through verbatim even though a working
model is configured. -/
theorem C10_skip_guard_witness :
    ((get_video_transcript (envPrefixCollision.transcripts "v1")).isEmpty
      || strStarts (get_video_transcript
          (envPrefixCollision.transcripts "v1"))
          "No transcript found"
      || strStarts (get_video_transcript
          (envPrefixCollision.transcripts "v1"))
          "Transcripts disabled"
      || strStarts (get_video_transcript
          (envPrefixCollision.transcripts "v1"))
          "Error fetching") = true
    ∧ (processVideo envPrefixCollision ⟨"v1", "T1", "youtu.be/v1"⟩).summary
      = get_video_transcript (envPrefixCollision.transcripts "v1") :=
  ⟨by decide, C10_skip_guard envPrefixCollision
    ⟨"v1", "T1", "youtu.be/v1"⟩ (by decide)⟩

/-- C6: a transport/auth error during listing makes
`get_playlist_video_urls` return the empty sequence (the exception is
caught inside the function, nothing propagates), and the surrounding run
proceeds to the empty-state warning outcome instead of aborting. -/
theorem C6_listing_softfail (gk yk url pid msg : String) (env : Env)
    (hg : gk.isEmpty = false) (hy : yk.isEmpty = false)
    (hu : url.isEmpty = false)
    (hpid : get_youtube_playlist_id url = some pid) :
    get_playlist_video_urls yk pid (.failure msg) = []
    ∧ runPipeline gk yk url env (.failure msg) = .noVideos := by
  have hlist : get_playlist_video_urls yk pid (.failure msg) = [] := by
    simp [get_playlist_video_urls, hy]
  refine ⟨hlist, ?_⟩
  simp [runPipeline, hg, hy, hu, hpid, hlist]

/-- C6 witness: the soft-fail theorem at concrete keys, URL and error
message. -/
theorem C6_listing_softfail_witness :
    "g".isEmpty = false ∧ "y".isEmpty = false
    ∧ "list=PL1".isEmpty = false
    ∧ get_youtube_playlist_id "list=PL1" = some "PL1"
    ∧ (get_playlist_video_urls "y" "PL1" (.failure "boom") = []
       ∧ runPipeline "g" "y" "list=PL1" envNoModel (.failure "boom")
          = .noVideos) :=
  ⟨by decide, by decide, by decide, by decide,
    C6_listing_softfail "g" "y" "list=PL1" "PL1" "boom" envNoModel
      (by decide) (by decide) (by decide) (by decide)⟩

/-! ## Claim theorems: progress reporting and the result table -/

/-- C9: over `n` listed videos (`n > 0`), the reported progress values
are exactly `(k+1)/n` for `k = 0 .. n-1`: one report per item, the
value after item `k` of `n` equals `k/n` exactly (as a rational), the
sequence is monotonically non-decreasing, stays within `[0, 1]`, and
its final value is `1`. -/
theorem C9_progress (n : Nat) (hn : 0 < n) :
    (progressList n).length = n
    ∧ (∀ k, k < n →
        (progressList n).getD k 0 = ((k : ℚ) + 1) / (n : ℚ))
    ∧ (∀ j k, j ≤ k → k < n →
        (progressList n).getD j 0 ≤ (progressList n).getD k 0)
    ∧ (∀ q ∈ progressList n, 0 ≤ q ∧ q ≤ 1)
    ∧ (progressList n).getD (n - 1) 0 = 1 := by
  have hnn : (0 : ℚ) < (n : ℚ) := by exact_mod_cast hn
  have hget : ∀ k, k < n →
      (progressList n).getD k 0 = ((k : ℚ) + 1) / (n : ℚ) := by
    intro k hk
    have h1 : (progressList n)[k]? = some (((k : ℚ) + 1) / (n : ℚ)) := by
      rw [progressList, List.getElem?_map, List.getElem?_range hk]
      rfl
    simp [List.getD, h1]
  refine ⟨by rw [progressList, List.length_map, List.length_range],
    hget, ?_, ?_, ?_⟩
  · intro j k hjk hk
    have hj : j < n := lt_of_le_of_lt hjk hk
    rw [hget j hj, hget k hk]
    have hcast : (j : ℚ) ≤ (k : ℚ) := by exact_mod_cast hjk
    gcongr
  · intro q hq
    rw [progressList, List.mem_map] at hq
    obtain ⟨i, hi, rfl⟩ := hq
    have hi2 : i < n := List.mem_range.mp hi
    constructor
    · positivity
    · rw [div_le_one hnn]
      have : (i : ℚ) + 1 ≤ (n : ℚ) := by
        exact_mod_cast Nat.succ_le_of_lt hi2
      linarith
  · have h1 : n - 1 < n := Nat.sub_lt hn Nat.one_pos
    rw [hget (n - 1) h1]
    have h2 : ((n - 1 : Nat) : ℚ) + 1 = (n : ℚ) := by
      have h3 : n - 1 + 1 = n := Nat.succ_pred_eq_of_pos hn
      exact_mod_cast congrArg (Nat.cast : Nat → ℚ) h3
    rw [h2]
    exact div_self (ne_of_gt hnn)

/-- C9 witness: the progress theorem at a three-video run. -/
theorem C9_progress_witness :
    0 < 3
    ∧ ((progressList 3).length = 3
      ∧ (∀ k, k < 3 →
          (progressList 3).getD k 0 = ((k : ℚ) + 1) / (3 : ℚ))
      ∧ (∀ j k, j ≤ k → k < 3 →
          (progressList 3).getD j 0 ≤ (progressList 3).getD k 0)
      ∧ (∀ q ∈ progressList 3, 0 ≤ q ∧ q ≤ 1)
      ∧ (progressList 3).getD (3 - 1) 0 = 1) :=
  ⟨by decide, C9_progress 3 (by decide)⟩

/-- C1 counterexample: with valid keys and a URL whose extraction
succeeds, an empty listing outcome makes the run stop at the
`no videos found` warning — no table (not even a zero-row one) is
produced, although the URL was not invalid. -/
theorem C1_counterexample :
    get_youtube_playlist_id "list=PL1" = some "PL1"
    ∧ runPipeline "g" "y" "list=PL1" envNoModel (.failure "boom")
        = .noVideos :=
  ⟨by decide, by decide⟩

/-- C1 amended: when the lister returns a non-empty sequence of `n`
records, the run renders a table whose rows are exactly the per-video
results in the lister's order — row `k` is built from listed video `k`,
so there are exactly `n` rows; when the lister returns the empty
sequence (including after a listing failure) the run produces no table,
only the warning outcome, and an invalid URL likewise produces no
table. -/
theorem C1_rows (gk yk url : String) (env : Env)
    (ep : ListingBehavior) (pid : String)
    (hg : gk.isEmpty = false) (hy : yk.isEmpty = false)
    (hu : url.isEmpty = false)
    (hpid : get_youtube_playlist_id url = some pid)
    (hne : get_playlist_video_urls yk pid ep ≠ []) :
    runPipeline gk yk url env ep
      = .table ((get_playlist_video_urls yk pid ep).map (processVideo env))
          (progressList (get_playlist_video_urls yk pid ep).length)
    ∧ ((get_playlist_video_urls yk pid ep).map (processVideo env)).length
        = (get_playlist_video_urls yk pid ep).length
    ∧ (∀ k : Nat, ((get_playlist_video_urls yk pid ep).map
          (processVideo env))[k]?
        = ((get_playlist_video_urls yk pid ep)[k]?).map
            (processVideo env))
    ∧ ∀ ep2, get_playlist_video_urls yk pid ep2 = [] →
        runPipeline gk yk url env ep2 = .noVideos := by
  have hne' : (get_playlist_video_urls yk pid ep).isEmpty = false := by
    simpa [List.isEmpty_iff] using hne
  refine ⟨?_, by simp, fun k => by rw [List.getElem?_map], ?_⟩
  · simp [runPipeline, hg, hy, hu, hpid, hne']
  · intro ep2 h2
    simp [runPipeline, hg, hy, hu, hpid, h2]

/-- C1 witness: the amended theorem at a one-page endpoint with one
video. -/
theorem C1_rows_witness :
    "g".isEmpty = false ∧ "y".isEmpty = false
    ∧ "list=PL1".isEmpty = false
    ∧ get_youtube_playlist_id "list=PL1" = some "PL1"
    ∧ get_playlist_video_urls "y" "PL1" onePage ≠ []
    ∧ runPipeline "g" "y" "list=PL1" envNoModel onePage
        = .table ((get_playlist_video_urls "y" "PL1" onePage).map
              (processVideo envNoModel))
            (progressList
              (get_playlist_video_urls "y" "PL1" onePage).length) :=
  ⟨by decide, by decide, by decide, by decide, by decide,
    (C1_rows "g" "y" "list=PL1" envNoModel onePage "PL1"
      (by decide) (by decide) (by decide) (by decide) (by decide)).1⟩

end YTPS
